import Mathlib

/-!
# BoxedHours: a verification development for `src/c/main.c`

A shallow embedding of the watchface's grid table, layout arithmetic, hour
display update and tap/connection handlers, followed by theorems that settle
the specification's claims against that code.

Conventions.
* C `int` arithmetic is `Int`; `/` and `%` of C are `Int.tdiv` and `Int.tmod`.
* A conversion to `uint8_t` / `uint16_t` is `% 256` / `% 65536`, a conversion
  to `int8_t` is `toInt8`.
* `time_t` is declared by the platform C library, not by this repository; the
  arithmetic on it in `tap` is taken exact (unbounded `Int`).
* Values the host hands to the program (`struct tm`, the tap time, the change
  mask, the screen width, the display shape) are function arguments.
-/

namespace BoxedHours

/-! ## The grid table (main.c, lines 5-9) -/

/-- Table `HOUR_BOX_LOC`: y,x grid locations, each as a nibble|nibble byte. -/
def HOUR_BOX_LOC : List Nat :=
  [0x02, 0x03, 0x13, 0x23, 0x33, 0x32, 0x31, 0x30, 0x20, 0x10, 0x00, 0x01]

/-- Function `hour_row`: `HOUR_BOX_LOC[i] >> 4`. The C code only calls it with
`i < HOURS`; an index outside the table reads as 0 here. -/
def hour_row (i : Nat) : Nat := (HOUR_BOX_LOC.getD i 0 >>> 4) % 256

/-- Function `hour_col`: `HOUR_BOX_LOC[i] & 0xF`. -/
def hour_col (i : Nat) : Nat := (HOUR_BOX_LOC.getD i 0 &&& 0xF) % 256

/-- Constant `HOURS = ARRAY_LENGTH(HOUR_BOX_LOC)`. -/
abbrev HOURS : Nat := 12

/-- Constant `COLS`. -/
def COLS : Nat := 4

/-- Constant `HOUR_DOT_COLS`. -/
def HOUR_DOT_COLS : Nat := 4

/-- Constant `DOUBLE_TAP_MS`. -/
def DOUBLE_TAP_MS : Int := 500

/-- Constant `VIBE_START_HOUR`. -/
def VIBE_START_HOUR : Int := 7

/-- Constant `VIBE_LAST_HOUR`. -/
def VIBE_LAST_HOUR : Int := 21

/-- The grid position `(hour_row i, hour_col i)` of path index `i`. -/
def hour_pos (i : Nat) : Nat × Nat := (hour_row i, hour_col i)

/-- The next border cell clockwise on a 4x4 grid, written from the spec's
words: right along the top row, down the right edge, left along the bottom
row, up the left edge. Cells off the border are left where they are. -/
def nextClockwise (p : Nat × Nat) : Nat × Nat :=
  if p.1 = 0 ∧ p.2 < 3 then (0, p.2 + 1)
  else if p.2 = 3 ∧ p.1 < 3 then (p.1 + 1, 3)
  else if p.1 = 3 ∧ 0 < p.2 then (3, p.2 - 1)
  else if p.2 = 0 ∧ 0 < p.1 then (p.1 - 1, 0)
  else p

/-- Manhattan distance between two grid positions. -/
def gridDist (p q : Nat × Nat) : Nat :=
  (max p.1 q.1 - min p.1 q.1) + (max p.2 q.2 - min p.2 q.2)

/-! ## Layout arithmetic of `load_main_window` (main.c, lines 79-99) -/

/-- The integers `load_main_window` computes from the screen width. -/
structure Layout where
  clock_center_xy : Int
  margin : Int
  total_dot_cols : Int
  s_dot_wh : Int
  hour_wh : Int
  clock_wh : Int
  clock_xy : Int
  deriving DecidableEq, Repr

/-- The layout part of `load_main_window`. `w` is the root layer's width
(`uint16_t`), `round` is the display shape that the macro
`PBL_IF_ROUND_ELSE(a, b)` of the platform header selects on (`a` on a round
display, `b` otherwise). -/
def load_main_window (w : Nat) (round : Bool) : Layout :=
  let wi : Int := (w : Int)
  let clock_center_xy : Int := (Int.tdiv wi 2) % 65536
  let margin : Int := (if round then Int.tdiv (wi * 20) 200 else 0) % 256
  let total_dot_cols : Int := ((COLS : Int) * ((HOUR_DOT_COLS : Int) * 2) - 1) % 65536
  let s_dot_wh : Int := (Int.tdiv (wi - (2 * margin)) total_dot_cols) % 256
  let hour_wh : Int := (s_dot_wh * ((HOUR_DOT_COLS : Int) * 2 - 1)) % 256
  let clock_wh : Int := ((COLS : Int) * hour_wh + ((COLS : Int) - 1) * s_dot_wh) % 65536
  let clock_xy : Int := (clock_center_xy - Int.tdiv clock_wh 2) % 65536
  { clock_center_xy := clock_center_xy, margin := margin,
    total_dot_cols := total_dot_cols, s_dot_wh := s_dot_wh, hour_wh := hour_wh,
    clock_wh := clock_wh, clock_xy := clock_xy }

/-- Origin `(x, y)` of the rectangle of hour cell `i` in `load_main_window`. -/
def cell_origin (g : Layout) (i : Nat) : Int × Int :=
  let col : Int := ((hour_col i : Nat) : Int) % 65536
  let x : Int := (g.clock_xy + col * (g.hour_wh + g.s_dot_wh)) % 65536
  let y : Int := (g.clock_xy + ((hour_row i : Nat) : Int) * (g.hour_wh + g.s_dot_wh)) % 65536
  (x, y)

/-! ## Program state -/

/-- The NUL character that ends a C string. -/
def NUL : Char := Char.ofNat 0

/-- The file-scope variables the hour display and the tap gesture use.
`s_hour_name` is `char s_hour_name[HOURS][3]`; `hour_hidden i` is the hidden
flag of the layer of text layer `s_hour[i]` (each text layer shows the buffer
`s_hour_name[i]` it was given in `load_main_window`). The remaining
file-scope variables (`s_date_text`, `s_minutes_text`, `s_bt`,
`s_health_text`, colours, fonts) are written by statements that read none of
the fields below and are not part of this state. -/
structure State where
  s_show_hour_names : Bool
  s_hour_name : Fin HOURS → Fin 3 → Char
  hour_hidden : Fin HOURS → Bool
  s_last_tap_s : Int
  s_last_tap_ms : Nat
  s_current_taps : Nat

/-- The field of `struct tm` that the modelled code reads. -/
structure Tm where
  tm_hour : Int
  deriving DecidableEq, Repr

/-- A haptic pulse requested from the host (`vibes_short_pulse`,
`vibes_long_pulse`). -/
inductive Vibe where
  | short
  | long
  deriving DecidableEq, Repr

/-- Array assignment `a[i] = v`. -/
def setAt {n : Nat} {α : Type} (a : Fin n → α) (i : Fin n) (v : α) : Fin n → α :=
  fun j => if j = i then v else a j

/-- The loop `for (int i = 0; i < HOURS; ++i) body`. -/
def forHours {σ : Type} (body : Fin HOURS → σ → σ) (s : σ) : σ :=
  (List.finRange HOURS).foldl (fun acc i => body i acc) s

/-- Conversion of an `int` to `int8_t`. -/
def toInt8 (x : Int) : Int := (x + 128) % 256 - 128

/-- The characters `printf` produces for `%d`. -/
def fmt_d (v : Int) : List Char :=
  if v < 0 then '-' :: Nat.toDigits 10 v.natAbs else Nat.toDigits 10 v.toNat

/-- Call `snprintf(buf, sizeof(buf), "%d", v)` on a buffer of `n` bytes: at
most `n - 1` characters are stored, then a NUL; later bytes are untouched. -/
def snprintf_d {n : Nat} (buf : Fin n → Char) (v : Int) : Fin n → Char :=
  let out := (fmt_d v).take (n - 1)
  fun j => if j.val < out.length then out.getD j.val NUL
    else if j.val = out.length then NUL else buf j

/-- The C string held in a buffer: its bytes up to the first NUL. -/
def cstr {n : Nat} (buf : Fin n → Char) : List Char :=
  ((List.finRange n).map buf).takeWhile (fun c => c != NUL)

/-- The text that text layer `s_hour[i]` shows. -/
def label (st : State) (i : Fin HOURS) : String := String.mk (cstr (st.s_hour_name i))

/-- Cell `i` is lit: the layer of `s_hour[i]` is not hidden. -/
def lit (st : State) (i : Fin HOURS) : Bool := !st.hour_hidden i

/-- State after `load_main_window`: the static variables are zero and every
hour text layer has been created hidden. -/
def loaded : State :=
  { s_show_hour_names := false
    s_hour_name := fun _ _ => NUL
    hour_hidden := fun _ => true
    s_last_tap_s := 0
    s_last_tap_ms := 0
    s_current_taps := 0 }

/-! ## Handlers (main.c, lines 11-14 and 188-287) -/

/-- Function `allow_vibration`. -/
def allow_vibration (now : Tm) : Bool :=
  decide (VIBE_START_HOUR ≤ now.tm_hour) && decide (now.tm_hour ≤ VIBE_LAST_HOUR)

/-- Function `update`, restricted to the statements that touch `State`
(lines 194-218). `HOUR_UNIT` is the bit of the platform's `TimeUnits` mask
for the hour; its value comes from the platform header and is a parameter.
The call `text_layer_set_text(s_hour[i], s_hour_name[i])` hands the layer the
buffer it already shows and changes nothing here. -/
def update (HOUR_UNIT : Nat) (st : State) (now : Tm) (units_changed : Nat) : State :=
  let hour_2_first_digit : Char := st.s_hour_name 1 0
  let showing_hour_names : Bool := hour_2_first_digit != NUL
  if st.s_show_hour_names != showing_hour_names || (units_changed &&& HOUR_UNIT != 0) then
    let morning : Bool := decide (1 ≤ now.tm_hour) && decide (now.tm_hour ≤ (HOURS : Int))
    let expected_hour_2_first_digit : Char :=
      if !st.s_show_hour_names then NUL else if morning then '2' else '1'
    let names : Fin HOURS → Fin 3 → Char :=
      if expected_hour_2_first_digit != hour_2_first_digit then
        forHours (fun i names =>
          if st.s_show_hour_names then
            setAt names i (snprintf_d (names i)
              (Int.tmod (((HOURS : Int) * (if morning then 0 else 1)) + (i.val : Int) + 1) 24))
          else
            setAt names i (setAt (names i) 0 NUL)) st.s_hour_name
      else st.s_hour_name
    let last_on_hour : Int := toInt8 (Int.tmod (now.tm_hour + ((HOURS : Int) - 1)) (HOURS : Int))
    let hidden : Fin HOURS → Bool :=
      forHours (fun i hid =>
        let hide : Bool := decide ((i.val : Int) > last_on_hour)
        if hid i != hide then setAt hid i hide else hid) st.hour_hidden
    { st with s_hour_name := names, hour_hidden := hidden }
  else st

/-- Function `update_now`: `update` on the host's current local time `now`. -/
def update_now (HOUR_UNIT : Nat) (st : State) (now : Tm) (units_to_check : Nat) : State :=
  update HOUR_UNIT st now units_to_check

/-- Function `tick`: the new state and the pulse requested, if any. -/
def tick (HOUR_UNIT : Nat) (st : State) (now : Tm) (changed_units : Nat) : State × Option Vibe :=
  (update HOUR_UNIT st now changed_units,
    if (changed_units &&& HOUR_UNIT != 0) && allow_vibration now then some Vibe.short else none)

/-- Function `tap`. `s`, `ms` are what `time_ms` reports (`ms` is a
`uint16_t`), `now` is the local time `update_now` reads. -/
def tap (HOUR_UNIT : Nat) (st : State) (s : Int) (ms : Nat) (now : Tm) : State :=
  let expired0 : Bool :=
    decide (1000 * (s - st.s_last_tap_s) + ((ms : Int) - (st.s_last_tap_ms : Int)) > DOUBLE_TAP_MS)
  let st1 : State :=
    if !expired0 then { st with s_current_taps := (st.s_current_taps + 1) % 256 } else st
  let fire : Bool := !expired0 && decide (st1.s_current_taps > 2)
  let st2 : State :=
    if fire then { st1 with s_show_hour_names := xor st1.s_show_hour_names true } else st1
  let expired : Bool := expired0 || fire
  let st3 : State :=
    if expired then { st2 with s_last_tap_s := s, s_last_tap_ms := ms, s_current_taps := 1 }
    else st2
  update_now HOUR_UNIT st3 now 0

/-- Lines 257-277 of `tap`: the gesture bookkeeping, up to but not including
the closing call `update_now(0)`. This is the state in which `tap` enters
`update`; `tap_split` shows `tap` is `update_now` on it. -/
def tap_gesture (st : State) (s : Int) (ms : Nat) : State :=
  let expired0 : Bool :=
    decide (1000 * (s - st.s_last_tap_s) + ((ms : Int) - (st.s_last_tap_ms : Int)) > DOUBLE_TAP_MS)
  let st1 : State :=
    if !expired0 then { st with s_current_taps := (st.s_current_taps + 1) % 256 } else st
  let fire : Bool := !expired0 && decide (st1.s_current_taps > 2)
  let st2 : State :=
    if fire then { st1 with s_show_hour_names := xor st1.s_show_hour_names true } else st1
  let expired : Bool := expired0 || fire
  if expired then { st2 with s_last_tap_s := s, s_last_tap_ms := ms, s_current_taps := 1 }
  else st2

/-- Function `connection_changed`: the new state and the pulse requested, if
any. `now` is the local time of the one `time(NULL)` reading the function
uses for both `update` and `allow_vibration`. -/
def connection_changed (HOUR_UNIT : Nat) (st : State) (connected : Bool) (now : Tm) :
    State × Option Vibe :=
  (update_now HOUR_UNIT st now 0,
    if !connected && allow_vibration now then some Vibe.long else none)

/-- States the program can be in between events: after the window load, and
after any further `update` (as run by `init` and `tick`), `tap` or
`connection_changed`. -/
inductive Reachable (HOUR_UNIT : Nat) : State → Prop where
  | load : Reachable HOUR_UNIT loaded
  | tick (st : State) (now : Tm) (units : Nat) :
      Reachable HOUR_UNIT st → Reachable HOUR_UNIT (tick HOUR_UNIT st now units).1
  | tap (st : State) (s : Int) (ms : Nat) (now : Tm) :
      Reachable HOUR_UNIT st → Reachable HOUR_UNIT (tap HOUR_UNIT st s ms now)
  | conn (st : State) (connected : Bool) (now : Tm) :
      Reachable HOUR_UNIT st → Reachable HOUR_UNIT (connection_changed HOUR_UNIT st connected now).1

/-- States in which the program enters `update`: a state between events (the
entry of `tick`, `connection_changed` and the first `update_now` of `init`),
or the state `tap` has just written when it calls `update_now(0)`, where the
label mode may have been toggled a moment before. -/
inductive AtUpdate (HOUR_UNIT : Nat) : State → Prop where
  | event (st : State) : Reachable HOUR_UNIT st → AtUpdate HOUR_UNIT st
  | tapped (st : State) (s : Int) (ms : Nat) :
      Reachable HOUR_UNIT st → AtUpdate HOUR_UNIT (tap_gesture st s ms)

/-- Time in milliseconds of the pair `(s, ms)` that `time_ms` reports. -/
def msOf (s : Int) (ms : Nat) : Int := 1000 * s + (ms : Int)

/-- Gesture states reachable from the initial state `(0, 0, 0)` by taps with
non-decreasing timestamps, other events in between allowed. The index is the
time of the latest tap, 0 before the first one: `time_ms` counts from the
epoch, so no tap is earlier than the initial stored timestamp 0. -/
inductive TapReach (HOUR_UNIT : Nat) : Int → State → Prop where
  | load : TapReach HOUR_UNIT 0 loaded
  | tap (prev : Int) (st : State) (s : Int) (ms : Nat) (now : Tm) :
      TapReach HOUR_UNIT prev st → prev ≤ msOf s ms →
      TapReach HOUR_UNIT (msOf s ms) (tap HOUR_UNIT st s ms now)
  | other (prev : Int) (st : State) (now : Tm) (units : Nat) :
      TapReach HOUR_UNIT prev st → TapReach HOUR_UNIT prev (update HOUR_UNIT st now units)

/-! ## Notions used to state the claims -/

/-- Whether `update` sees the labels as currently written: its local
`showing_hour_names`, the first byte of `s_hour_name[1]` is not NUL. -/
def showing_hour_names (st : State) : Bool := st.s_hour_name 1 0 != NUL

/-- The guard of the hour block of `update`: the label mode differs from what
is written, or the hour changed. -/
def hourBlockRuns (HOUR_UNIT : Nat) (st : State) (units_changed : Nat) : Bool :=
  st.s_show_hour_names != showing_hour_names st || (units_changed &&& HOUR_UNIT != 0)

/-- The morning block of the day: hours 1 to 12. -/
def isMorning (h : Int) : Bool := decide (1 ≤ h) && decide (h ≤ 12)

/-- The number written on cell `i` in a block of the day. -/
def hourNumber (morning : Bool) (i : Fin HOURS) : Nat :=
  (12 * (if morning then 0 else 1) + i.val + 1) % 24

/-- Every label buffer holds the number of its cell for the given block. -/
def NamesFor (morning : Bool) (names : Fin HOURS → Fin 3 → Char) : Prop :=
  ∀ i, cstr (names i) = Nat.toDigits 10 (hourNumber morning i)

/-- The label buffers are all blank, or all written for one block. -/
def NamesInv (names : Fin HOURS → Fin 3 → Char) : Prop :=
  (∀ i, names i 0 = NUL) ∨ NamesFor true names ∨ NamesFor false names

/-- The first test of `tap`: the tap comes more than `DOUBLE_TAP_MS` after the
stored timestamp. -/
def tapExpired (st : State) (s : Int) (ms : Nat) : Bool :=
  decide (1000 * (s - st.s_last_tap_s) + ((ms : Int) - (st.s_last_tap_ms : Int)) > DOUBLE_TAP_MS)

/-- The tap is counted and brings the counter above 2: `tap` toggles. -/
def tapFires (st : State) (s : Int) (ms : Nat) : Bool :=
  !tapExpired st s ms && decide ((st.s_current_taps + 1) % 256 > 2)

/-- The labels of the twelve cells in path order. -/
def labels (st : State) : List String := (List.finRange HOURS).map (label st)

/-- State reached from `loaded` by three taps at 0 ms, 200 ms and 400 ms at
one o'clock in the afternoon, with the hour bit of the mask taken as 4. -/
def tappedOn : State :=
  tap 4 (tap 4 (tap 4 loaded 0 0 ⟨13⟩) 0 200 ⟨13⟩) 0 400 ⟨13⟩

/-- State in which the third of three taps at 0 ms, 200 ms and 400 ms enters
`update`: the label mode has just been toggled on and no label is written
yet. -/
def justToggled : State :=
  tap_gesture (tap 4 (tap 4 loaded 0 0 ⟨13⟩) 0 200 ⟨13⟩) 0 400

/-! ## Sanity checks of the embedding -/

theorem HOURS_eq_length : HOURS = HOUR_BOX_LOC.length := by decide

theorem layout_rect_144 : load_main_window 144 false = ⟨72, 0, 31, 4, 28, 124, 10⟩ := by
  decide

theorem layout_round_180 : load_main_window 180 true = ⟨90, 18, 31, 4, 28, 124, 28⟩ := by
  decide

/-! ## Layout lemma -/

/-- The chain of truncations of `load_main_window` on a non-negative usable
width `n`: the dot size, the cell size and the grid extent stay within `n`. -/
theorem grid_arith (n : Int) (hn : 0 ≤ n) :
    (4 * ((Int.tdiv n 31 % 256) * 7 % 256) + 3 * (Int.tdiv n 31 % 256)) % 65536
      = 4 * ((Int.tdiv n 31 % 256) * 7 % 256) + 3 * (Int.tdiv n 31 % 256) ∧
    (4 * ((Int.tdiv n 31 % 256) * 7 % 256) + 3 * (Int.tdiv n 31 % 256)) % 65536 ≤ n := by
  rw [Int.tdiv_eq_ediv hn (by decide)]
  have hq : 31 * (n / 31) ≤ n := by omega
  have hq0 : 0 ≤ n / 31 := by omega
  generalize n / 31 = q at hq hq0 ⊢
  have hd1 : 0 ≤ q % 256 := by omega
  have hd2 : q % 256 ≤ 255 := by omega
  have hd3 : q % 256 ≤ q := by omega
  generalize q % 256 = d at hd1 hd2 hd3 ⊢
  have hh1 : 0 ≤ d * 7 % 256 := by omega
  have hh2 : d * 7 % 256 ≤ 255 := by omega
  have hh3 : d * 7 % 256 ≤ d * 7 := by omega
  generalize d * 7 % 256 = c at hh1 hh2 hh3 ⊢
  have hz : (4 * c + 3 * d) % 65536 = 4 * c + 3 * d := by omega
  rw [hz]
  constructor
  · rfl
  · omega

/-! ## Lemmas on loops and C strings -/

theorem foldl_setAt {n : Nat} {α : Type} (F : Fin n → α → α) (l : List (Fin n)) (hl : l.Nodup)
    (a : Fin n → α) (j : Fin n) :
    (l.foldl (fun acc i => setAt acc i (F i (acc i))) a) j = if j ∈ l then F j (a j) else a j := by
  induction l generalizing a with
  | nil => simp
  | cons x xs ih =>
    have hx : x ∉ xs := (List.nodup_cons.mp hl).1
    rw [List.foldl_cons, ih (List.nodup_cons.mp hl).2]
    by_cases hj : j = x
    · subst hj
      simp [hx, setAt]
    · by_cases hm : j ∈ xs
      · simp [hm, hj, setAt]
      · simp [hm, hj, setAt]

theorem forHours_setAt {α : Type} (F : Fin HOURS → α → α) (a : Fin HOURS → α) (j : Fin HOURS) :
    forHours (fun i acc => setAt acc i (F i (acc i))) a j = F j (a j) := by
  unfold forHours
  rw [foldl_setAt F _ (List.nodup_finRange HOURS)]
  simp

theorem cstr_snprintf (buf : Fin 3 → Char) (v : Nat) (hv : v < 24) :
    cstr (snprintf_d buf (v : Int)) = Nat.toDigits 10 v := by
  interval_cases v <;> rfl

theorem cstr_head (buf : Fin 3 → Char) (c : Char) (t : List Char) (h : cstr buf = c :: t) :
    buf 0 = c := by
  have hf : List.finRange 3 = [0, 1, 2] := by decide
  simp only [cstr, hf, List.map_cons, List.takeWhile_cons] at h
  by_cases h0 : (buf 0 != NUL) = true
  · simp [h0] at h
    exact h.1
  · simp [h0] at h

theorem cstr_nul (buf : Fin 3 → Char) (h : buf 0 = NUL) : cstr buf = [] := by
  have hf : List.finRange 3 = [0, 1, 2] := by decide
  simp [cstr, hf, List.takeWhile_cons, h]

theorem hour_arg (m : Bool) (i : Fin HOURS) :
    Int.tmod (((HOURS : Int) * (if m then 0 else 1)) + (i.val : Int) + 1) 24
      = ((hourNumber m i : Nat) : Int) := by
  cases m <;> fin_cases i <;> rfl

theorem hourNumber_lt (m : Bool) (i : Fin HOURS) : hourNumber m i < 24 :=
  Nat.mod_lt _ (by decide)

/-! ## Lemmas on `update` -/

theorem update_unfold (HU : Nat) (st : State) (now : Tm) (units : Nat) :
    update HU st now units =
      if hourBlockRuns HU st units then
        { st with
          s_hour_name :=
            if (if !st.s_show_hour_names then NUL else if isMorning now.tm_hour then '2' else '1')
                != st.s_hour_name 1 0 then
              forHours (fun i names =>
                if st.s_show_hour_names then
                  setAt names i (snprintf_d (names i)
                    (Int.tmod (((HOURS : Int) * (if isMorning now.tm_hour then 0 else 1))
                      + (i.val : Int) + 1) 24))
                else setAt names i (setAt (names i) 0 NUL)) st.s_hour_name
            else st.s_hour_name
          hour_hidden :=
            forHours (fun i hid =>
              setAt hid i (decide ((i.val : Int)
                > toInt8 (Int.tmod (now.tm_hour + ((HOURS : Int) - 1)) (HOURS : Int)))))
              st.hour_hidden }
      else st := by
  have hb : ∀ (hide : Fin HOURS → Bool), (fun (i : Fin HOURS) (hid : Fin HOURS → Bool) =>
      if (hid i != hide i) = true then setAt hid i (hide i) else hid)
      = fun i hid => setAt hid i (hide i) := by
    intro hide
    funext i hid j
    by_cases h : (hid i != hide i) = true
    · simp [h]
    · have h2 : hid i = hide i := by simpa using h
      by_cases hj : j = i
      · subst hj; simp [setAt, h2]
      · simp [setAt, hj, h2]
  unfold update hourBlockRuns showing_hour_names isMorning
  simp only [hb]
  rfl

theorem update_show (HU : Nat) (st : State) (now : Tm) (units : Nat) :
    (update HU st now units).s_show_hour_names = st.s_show_hour_names := by
  rw [update_unfold]; split <;> rfl

theorem update_taps (HU : Nat) (st : State) (now : Tm) (units : Nat) :
    (update HU st now units).s_current_taps = st.s_current_taps ∧
    (update HU st now units).s_last_tap_s = st.s_last_tap_s ∧
    (update HU st now units).s_last_tap_ms = st.s_last_tap_ms := by
  rw [update_unfold]; split <;> exact ⟨rfl, rfl, rfl⟩

theorem update_hidden (HU : Nat) (st : State) (now : Tm) (units : Nat)
    (hc : hourBlockRuns HU st units = true) (j : Fin HOURS) :
    (update HU st now units).hour_hidden j
      = decide ((j.val : Int) > toInt8 (Int.tmod (now.tm_hour + ((HOURS : Int) - 1)) (HOURS : Int))) := by
  rw [update_unfold, if_pos hc]
  exact forHours_setAt (fun i _ => decide ((i.val : Int)
    > toInt8 (Int.tmod (now.tm_hour + ((HOURS : Int) - 1)) (HOURS : Int)))) st.hour_hidden j

theorem names_loop_on (m : Bool) (names : Fin HOURS → Fin 3 → Char) :
    NamesFor m (forHours (fun i names =>
      if true = true then
        setAt names i (snprintf_d (names i)
          (Int.tmod (((HOURS : Int) * (if m then 0 else 1)) + (i.val : Int) + 1) 24))
      else setAt names i (setAt (names i) 0 NUL)) names) := by
  intro j
  simp only [if_true]
  rw [forHours_setAt (fun i b => snprintf_d b
    (Int.tmod (((HOURS : Int) * (if m then 0 else 1)) + (i.val : Int) + 1) 24)) names j]
  rw [hour_arg]
  exact cstr_snprintf _ _ (hourNumber_lt m j)

theorem names_loop_off (m : Bool) (names : Fin HOURS → Fin 3 → Char) (j : Fin HOURS) :
    (forHours (fun i names =>
      if false = true then
        setAt names i (snprintf_d (names i)
          (Int.tmod (((HOURS : Int) * (if m then 0 else 1)) + (i.val : Int) + 1) 24))
      else setAt names i (setAt (names i) 0 NUL)) names) j 0 = NUL := by
  have h : (if false = true then (1 : Nat) else 0) = 0 := rfl
  simp only [Bool.false_eq_true, if_false]
  rw [forHours_setAt (fun _ b => setAt b 0 NUL) names j]
  simp [setAt]

theorem namesFor_first (m : Bool) (names : Fin HOURS → Fin 3 → Char) (h : NamesFor m names) :
    names 1 0 = if m then '2' else '1' := by
  have h1 := h 1
  cases m
  · exact cstr_head (names 1) '1' ['4'] (by rw [h1]; rfl)
  · exact cstr_head (names 1) '2' [] (by rw [h1]; rfl)

/-- When the label mode is on and the hour block runs, the labels come out
written for the block of the current hour. -/
theorem update_names_on (HU : Nat) (st : State) (now : Tm) (units : Nat)
    (hinv : NamesInv st.s_hour_name) (hshow : st.s_show_hour_names = true)
    (hc : hourBlockRuns HU st units = true) :
    NamesFor (isMorning now.tm_hour) (update HU st now units).s_hour_name := by
  rw [update_unfold, if_pos hc]
  simp only [hshow]
  by_cases hx : ((if (!true) = true then NUL else if isMorning now.tm_hour = true then '2' else '1')
      != st.s_hour_name 1 0) = true
  · rw [if_pos hx]
    exact names_loop_on _ _
  · rw [if_neg hx]
    have hx3 : (if isMorning now.tm_hour = true then '2' else '1') = st.s_hour_name 1 0 := by
      simpa using hx
    have hx2 : st.s_hour_name 1 0 = if isMorning now.tm_hour = true then '2' else '1' := hx3.symm
    rcases hinv with h0 | hm | ha
    · exfalso
      rw [h0 1] at hx2
      cases hmm : isMorning now.tm_hour <;> rw [hmm] at hx2 <;> exact absurd hx2 (by decide)
    · have := namesFor_first true _ hm
      rw [hx2] at this
      cases hmm : isMorning now.tm_hour
      · rw [hmm] at this; exact absurd this (by decide)
      · exact hm
    · have := namesFor_first false _ ha
      rw [hx2] at this
      cases hmm : isMorning now.tm_hour
      · exact ha
      · rw [hmm] at this; exact absurd this (by decide)

theorem update_inv (HU : Nat) (st : State) (now : Tm) (units : Nat)
    (hinv : NamesInv st.s_hour_name) : NamesInv (update HU st now units).s_hour_name := by
  by_cases hc : hourBlockRuns HU st units = true
  · cases hshow : st.s_show_hour_names
    · rw [update_unfold, if_pos hc]
      simp only [hshow, Bool.not_false, if_true]
      by_cases hx : (NUL != st.s_hour_name 1 0) = true
      · rw [if_pos hx]
        exact Or.inl (fun j => names_loop_off _ _ j)
      · rw [if_neg hx]
        exact hinv
    · have := update_names_on HU st now units hinv hshow hc
      cases hmm : isMorning now.tm_hour
      · rw [hmm] at this; exact Or.inr (Or.inr this)
      · rw [hmm] at this; exact Or.inr (Or.inl this)
  · rw [update_unfold, if_neg hc]
    exact hinv

/-! ## Lemmas on `tap` and on reachable states -/

theorem tap_fields (HU : Nat) (st : State) (s : Int) (ms : Nat) (now : Tm) :
    (tap HU st s ms now).s_show_hour_names
      = (if tapFires st s ms then !st.s_show_hour_names else st.s_show_hour_names) ∧
    (tap HU st s ms now).s_current_taps
      = (if tapExpired st s ms || tapFires st s ms then 1 else (st.s_current_taps + 1) % 256) ∧
    (tap HU st s ms now).s_last_tap_s
      = (if tapExpired st s ms || tapFires st s ms then s else st.s_last_tap_s) ∧
    (tap HU st s ms now).s_last_tap_ms
      = (if tapExpired st s ms || tapFires st s ms then ms else st.s_last_tap_ms) := by
  unfold tap update_now
  rw [update_show, (update_taps _ _ _ _).1, (update_taps _ _ _ _).2.1, (update_taps _ _ _ _).2.2]
  unfold tapFires tapExpired
  by_cases he : 1000 * (s - st.s_last_tap_s) + ((ms : Int) - (st.s_last_tap_ms : Int)) > DOUBLE_TAP_MS
  · simp [he]
  · by_cases hf : (st.s_current_taps + 1) % 256 > 2
    · simp [he, hf]
    · simp [he, hf]

theorem tap_inv (HU : Nat) (st : State) (s : Int) (ms : Nat) (now : Tm)
    (hinv : NamesInv st.s_hour_name) : NamesInv (tap HU st s ms now).s_hour_name := by
  unfold tap update_now
  apply update_inv
  by_cases he : 1000 * (s - st.s_last_tap_s) + ((ms : Int) - (st.s_last_tap_ms : Int)) > DOUBLE_TAP_MS
  · simpa [he] using hinv
  · by_cases hf : (st.s_current_taps + 1) % 256 > 2
    · simpa [he, hf] using hinv
    · simpa [he, hf] using hinv

theorem reachable_inv (HU : Nat) (st : State) (hr : Reachable HU st) :
    NamesInv st.s_hour_name := by
  induction hr with
  | load => exact Or.inl (fun _ => rfl)
  | tick st now units _ ih => exact update_inv HU st now units ih
  | tap st s ms now _ ih => exact tap_inv HU st s ms now ih
  | conn st connected now _ ih => exact update_inv HU st now 0 ih

theorem expired_iff (st : State) (s : Int) (ms : Nat) :
    tapExpired st s ms = true ↔ msOf s ms - msOf st.s_last_tap_s st.s_last_tap_ms > 500 := by
  unfold tapExpired msOf DOUBLE_TAP_MS
  rw [decide_eq_true_iff]
  constructor <;> intro h <;> omega

/-- The stored window start is never later than the latest tap. -/
theorem tapReach_window (HU : Nat) (prev : Int) (st : State) (hr : TapReach HU prev st) :
    msOf st.s_last_tap_s st.s_last_tap_ms ≤ prev := by
  induction hr with
  | load => decide
  | tap prev st s ms now _ hle ih =>
    obtain ⟨_, _, hs, hm⟩ := tap_fields HU st s ms now
    rw [hs, hm]
    split
    · exact le_refl _
    · exact le_trans ih hle
  | other prev st now units _ ih =>
    obtain ⟨_, hs, hm⟩ := update_taps HU st now units
    rw [hs, hm]
    exact ih

theorem block_runs_of_bit (HU : Nat) (st : State) (units : Nat) (hbit : units &&& HU ≠ 0) :
    hourBlockRuns HU st units = true := by
  simp [hourBlockRuns, hbit]

theorem last_on_hour_eq (h : Nat) (hh : h ≤ 23) :
    toInt8 (Int.tmod ((h : Int) + ((HOURS : Int) - 1)) (HOURS : Int)) = (((h + 11) % 12 : Nat) : Int) := by
  interval_cases h <;> rfl

theorem lit_update (HU : Nat) (st : State) (units : Nat) (h : Nat) (hh : h ≤ 23)
    (hc : hourBlockRuns HU st units = true) (i : Fin HOURS) :
    lit (update HU st ⟨(h : Int)⟩ units) i = true ↔ i.val ≤ (h + 11) % 12 := by
  unfold lit
  rw [update_hidden HU st _ units hc i, last_on_hour_eq h hh]
  by_cases hle : i.val ≤ (h + 11) % 12
  · have hn : ¬ ((i.val : Int) > (((h + 11) % 12 : Nat) : Int)) := by omega
    rw [decide_eq_false hn]
    exact ⟨fun _ => hle, fun _ => rfl⟩
  · have hp : (i.val : Int) > (((h + 11) % 12 : Nat) : Int) := by omega
    rw [decide_eq_true hp]
    exact ⟨fun hx => absurd hx (by decide), fun hx => absurd hx hle⟩

theorem label_update (HU : Nat) (st : State) (units : Nat) (h : Int)
    (hinv : NamesInv st.s_hour_name) (hshow : st.s_show_hour_names = true)
    (hc : hourBlockRuns HU st units = true) (i : Fin HOURS) :
    label (update HU st ⟨h⟩ units) i = toString (hourNumber (isMorning h) i) := by
  have hn := update_names_on HU st ⟨h⟩ units hinv hshow hc i
  unfold label
  rw [hn]
  rfl

/-- Function `tap` is its gesture bookkeeping followed by `update_now(0)`. -/
theorem tap_split (HU : Nat) (st : State) (s : Int) (ms : Nat) (now : Tm) :
    tap HU st s ms now = update_now HU (tap_gesture st s ms) now 0 := rfl

theorem tap_gesture_names (st : State) (s : Int) (ms : Nat) :
    (tap_gesture st s ms).s_hour_name = st.s_hour_name := by
  unfold tap_gesture
  by_cases he : 1000 * (s - st.s_last_tap_s) + ((ms : Int) - (st.s_last_tap_ms : Int)) > DOUBLE_TAP_MS
  · simp [he]
  · by_cases hf : (st.s_current_taps + 1) % 256 > 2
    · simp [he, hf]
    · simp [he, hf]

/-- Whenever the program enters `update`, the label buffers are all blank or
all written for one block. -/
theorem atUpdate_inv (HU : Nat) (st : State) (ha : AtUpdate HU st) :
    NamesInv st.s_hour_name := by
  cases ha with
  | event _ hr => exact reachable_inv HU st hr
  | tapped st0 s ms hr =>
    rw [tap_gesture_names]
    exact reachable_inv HU st0 hr

/-- Between events the label mode and the written labels agree, so there the
hour block of `update` runs only on the hour bit; the toggle is seen by the
`update_now(0)` inside `tap`. -/
theorem reachable_synced (HU : Nat) (st : State) (hr : Reachable HU st) :
    st.s_show_hour_names = showing_hour_names st := by
  have key : ∀ (st0 : State) (now : Tm) (units : Nat), NamesInv st0.s_hour_name →
      (st0.s_show_hour_names = showing_hour_names st0 ∨ hourBlockRuns HU st0 units = true) →
      (update HU st0 now units).s_show_hour_names
        = showing_hour_names (update HU st0 now units) := by
    intro st0 now units hinv hor
    by_cases hc : hourBlockRuns HU st0 units = true
    · rw [update_show]
      cases hshow : st0.s_show_hour_names
      · rw [update_unfold, if_pos hc]
        simp only [hshow, Bool.not_false, if_true, showing_hour_names]
        by_cases hx : (NUL != st0.s_hour_name 1 0) = true
        · rw [if_pos hx, names_loop_off]
          rfl
        · rw [if_neg hx]
          have hx2 : NUL = st0.s_hour_name 1 0 := by simpa using hx
          rw [← hx2]
          rfl
      · have hn := update_names_on HU st0 now units hinv hshow hc
        have hf := namesFor_first _ _ hn
        unfold showing_hour_names
        rw [hf]
        cases isMorning now.tm_hour <;> rfl
    · rcases hor with h1 | h2
      · rw [update_unfold, if_neg hc]
        exact h1
      · exact absurd h2 hc
  have run : ∀ (st0 : State) (units : Nat), st0.s_show_hour_names ≠ showing_hour_names st0 →
      hourBlockRuns HU st0 units = true := by
    intro st0 units hne
    unfold hourBlockRuns
    cases h1 : st0.s_show_hour_names <;> cases h2 : showing_hour_names st0 <;>
      simp_all
  have step : ∀ (st0 : State) (now : Tm) (units : Nat), NamesInv st0.s_hour_name →
      (update HU st0 now units).s_show_hour_names
        = showing_hour_names (update HU st0 now units) := by
    intro st0 now units hinv
    by_cases hs : st0.s_show_hour_names = showing_hour_names st0
    · exact key st0 now units hinv (Or.inl hs)
    · exact key st0 now units hinv (Or.inr (run st0 units hs))
  cases hr with
  | load => rfl
  | tick st0 now units hr0 => exact step st0 now units (reachable_inv HU st0 hr0)
  | tap st0 s ms now hr0 =>
    rw [tap_split]
    exact step _ now 0 (atUpdate_inv HU _ (AtUpdate.tapped st0 s ms hr0))
  | conn st0 connected now hr0 => exact step st0 now 0 (reachable_inv HU st0 hr0)

theorem atUpdate_justToggled : AtUpdate 4 justToggled :=
  AtUpdate.tapped _ 0 400
    (Reachable.tap _ 0 200 ⟨13⟩ (Reachable.tap _ 0 0 ⟨13⟩ Reachable.load))

theorem reachable_tappedOn : Reachable 4 tappedOn :=
  Reachable.tap _ 0 400 ⟨13⟩ (Reachable.tap _ 0 200 ⟨13⟩ (Reachable.tap _ 0 0 ⟨13⟩ Reachable.load))

/-! ## The claims -/

/-- C1: for every hour-of-day `h` in [0,23], after `update` runs with the hour
bit set and `tm_hour = h`, cell `i` is lit iff `i ≤ (h + 11) mod 12`; the lit
cells are exactly the first `n` cells of the path order, their number is `n`,
where `n = ((h mod 12) + 11) mod 12 + 1` and `1 ≤ n ≤ 12`. -/
theorem lit_cells_initial (HU : Nat) (st : State) (units : Nat) (h : Nat)
    (hh : h ≤ 23) (hbit : units &&& HU ≠ 0) :
    (∀ i : Fin HOURS, lit (update HU st ⟨(h : Int)⟩ units) i = true ↔ i.val ≤ (h + 11) % 12) ∧
    (∀ i : Fin HOURS, lit (update HU st ⟨(h : Int)⟩ units) i = true
      ↔ i.val < ((h % 12) + 11) % 12 + 1) ∧
    ((List.finRange HOURS).filter (lit (update HU st ⟨(h : Int)⟩ units))).length
      = ((h % 12) + 11) % 12 + 1 ∧
    1 ≤ ((h % 12) + 11) % 12 + 1 ∧ ((h % 12) + 11) % 12 + 1 ≤ 12 := by
  have hc := block_runs_of_bit HU st units hbit
  have h1 : ∀ i : Fin HOURS, lit (update HU st ⟨(h : Int)⟩ units) i = true ↔ i.val ≤ (h + 11) % 12 :=
    fun i => lit_update HU st units h hh hc i
  have hf : lit (update HU st ⟨(h : Int)⟩ units) = fun i => decide (i.val ≤ (h + 11) % 12) := by
    funext i
    rw [Bool.eq_iff_iff, h1 i]
    simp
  refine ⟨h1, ?_, ?_, ?_, ?_⟩
  · intro i
    rw [h1 i]
    omega
  · rw [hf]
    interval_cases h <;> decide
  · omega
  · omega

/-- Instance of C1 at six in the evening with the host's hour bit 4. -/
theorem lit_cells_initial_witness :
    (18 ≤ 23 ∧ 4 &&& 4 ≠ 0) ∧
    ((∀ i : Fin HOURS, lit (update 4 loaded ⟨((18 : Nat) : Int)⟩ 4) i = true ↔ i.val ≤ (18 + 11) % 12) ∧
    (∀ i : Fin HOURS, lit (update 4 loaded ⟨((18 : Nat) : Int)⟩ 4) i = true
      ↔ i.val < ((18 % 12) + 11) % 12 + 1) ∧
    ((List.finRange HOURS).filter (lit (update 4 loaded ⟨((18 : Nat) : Int)⟩ 4))).length
      = ((18 % 12) + 11) % 12 + 1 ∧
    1 ≤ ((18 % 12) + 11) % 12 + 1 ∧ ((18 % 12) + 11) % 12 + 1 ≤ 12) :=
  ⟨⟨by decide, by decide⟩, lit_cells_initial 4 loaded 4 18 (by decide) (by decide)⟩

/-- C2: for every hour-of-day `h` in [0,23] and every cell `i`, when label
mode is active and `update` runs its hour block for `h` (hour bit set, or the
label mode just toggled, so that it differs from what is written), the label
of cell `i` is the decimal string of `i + 1` if `1 ≤ h ≤ 12` and of
`(12 + i + 1) mod 24` otherwise. The state is any state whose label buffers
are all blank or all written for one block, which by `atUpdate_inv` is every
state in which the program enters `update`: between events, and inside `tap`
right after the toggle. -/
theorem label_text (HU : Nat) (st : State) (units : Nat) (h : Nat) (i : Fin HOURS)
    (hh : h ≤ 23) (hinv : NamesInv st.s_hour_name) (hshow : st.s_show_hour_names = true)
    (hrun : hourBlockRuns HU st units = true) :
    label (update HU st ⟨(h : Int)⟩ units) i
      = if 1 ≤ h ∧ h ≤ 12 then toString (i.val + 1) else toString ((12 + i.val + 1) % 24) := by
  rw [label_update HU st units _ hinv hshow hrun i]
  have hi : i.val < 12 := i.isLt
  by_cases hm : 1 ≤ h ∧ h ≤ 12
  · have : isMorning (h : Int) = true := by
      unfold isMorning
      simp only [Bool.and_eq_true, decide_eq_true_eq]
      omega
    rw [if_pos hm, this]
    unfold hourNumber
    congr 1
    simp only [if_true]
    omega
  · have : isMorning (h : Int) = false := by
      unfold isMorning
      rw [Bool.and_eq_false_iff]
      simp only [decide_eq_false_iff_not]
      omega
    rw [if_neg hm, this]
    unfold hourNumber
    congr 1

/-- Instances of C2 on both triggers, last cell. First the toggle: the third
tap of a triple tap at nine in the morning enters `update` with no hour bit
(mask 0) and the mode just toggled on. Then the hour bit: an hour tick at nine
in the morning after a triple tap made in the afternoon. -/
theorem label_text_witness :
    ((tap 4 (tap 4 (tap 4 loaded 0 0 ⟨13⟩) 0 200 ⟨13⟩) 0 400 ⟨((9 : Nat) : Int)⟩
        = update 4 justToggled ⟨((9 : Nat) : Int)⟩ 0 ∧
      AtUpdate 4 justToggled ∧ showing_hour_names justToggled = false ∧
      9 ≤ 23 ∧ NamesInv justToggled.s_hour_name ∧ justToggled.s_show_hour_names = true ∧
      hourBlockRuns 4 justToggled 0 = true) ∧
    label (update 4 justToggled ⟨((9 : Nat) : Int)⟩ 0) 11
      = if 1 ≤ 9 ∧ 9 ≤ 12 then toString ((11 : Fin HOURS).val + 1)
        else toString ((12 + (11 : Fin HOURS).val + 1) % 24)) ∧
    ((AtUpdate 4 tappedOn ∧ 9 ≤ 23 ∧ NamesInv tappedOn.s_hour_name ∧
      tappedOn.s_show_hour_names = true ∧ hourBlockRuns 4 tappedOn 4 = true) ∧
    label (update 4 tappedOn ⟨((9 : Nat) : Int)⟩ 4) 11
      = if 1 ≤ 9 ∧ 9 ≤ 12 then toString ((11 : Fin HOURS).val + 1)
        else toString ((12 + (11 : Fin HOURS).val + 1) % 24)) :=
  ⟨⟨⟨rfl, atUpdate_justToggled, by decide, by decide,
        atUpdate_inv 4 justToggled atUpdate_justToggled, by decide, by decide⟩,
      label_text 4 justToggled 0 9 11 (by decide)
        (atUpdate_inv 4 justToggled atUpdate_justToggled) (by decide) (by decide)⟩,
    ⟨⟨AtUpdate.event _ reachable_tappedOn, by decide,
        reachable_inv 4 tappedOn reachable_tappedOn, by decide, by decide⟩,
      label_text 4 tappedOn 4 9 11 (by decide)
        (reachable_inv 4 tappedOn reachable_tappedOn) (by decide) (by decide)⟩⟩

/-- C3, as stated, fails: from the loaded state, taps at 0 ms, 400 ms and
800 ms (each at most 500 ms after the one before, the first leaving the
counter at 1) never flip the flag; the same holds ten seconds later, where
the first tap resets the count. -/
theorem triple_tap_spaced_counterexample :
    ((tap 4 loaded 0 0 ⟨13⟩).s_current_taps = 1 ∧
      (tap 4 loaded 0 0 ⟨13⟩).s_show_hour_names = loaded.s_show_hour_names ∧
      (tap 4 (tap 4 loaded 0 0 ⟨13⟩) 0 400 ⟨13⟩).s_show_hour_names = loaded.s_show_hour_names ∧
      (tap 4 (tap 4 (tap 4 loaded 0 0 ⟨13⟩) 0 400 ⟨13⟩) 0 800 ⟨13⟩).s_show_hour_names
        = loaded.s_show_hour_names) ∧
    (tapExpired loaded 10 0 = true ∧
      (tap 4 loaded 10 0 ⟨13⟩).s_current_taps = 1 ∧
      (tap 4 loaded 10 0 ⟨13⟩).s_show_hour_names = loaded.s_show_hour_names ∧
      (tap 4 (tap 4 loaded 10 0 ⟨13⟩) 10 400 ⟨13⟩).s_show_hour_names = loaded.s_show_hour_names ∧
      (tap 4 (tap 4 (tap 4 loaded 10 0 ⟨13⟩) 10 400 ⟨13⟩) 10 800 ⟨13⟩).s_show_hour_names
        = loaded.s_show_hour_names) := by
  decide

/-- C3, amended: for three taps at non-decreasing times `t1 ≤ t2 ≤ t3` where
the first tap starts a fresh count (it leaves the counter at 1 and the stored
window start at `t1`, without flipping the flag) and the third tap is at most
500 ms after the first (`t3 - t1 ≤ 500`, measured from the first tap), `tap`
flips `s_show_hour_names` exactly once over the three taps, on the third. -/
theorem triple_tap_window (HU : Nat) (st : State)
    (s1 : Int) (ms1 : Nat) (s2 : Int) (ms2 : Nat) (s3 : Int) (ms3 : Nat) (n1 n2 n3 : Tm)
    (hcount : (tap HU st s1 ms1 n1).s_current_taps = 1)
    (hstart : (tap HU st s1 ms1 n1).s_last_tap_s = s1 ∧ (tap HU st s1 ms1 n1).s_last_tap_ms = ms1)
    (hflag : (tap HU st s1 ms1 n1).s_show_hour_names = st.s_show_hour_names)
    (_h12 : msOf s1 ms1 ≤ msOf s2 ms2) (h23 : msOf s2 ms2 ≤ msOf s3 ms3)
    (hwin : msOf s3 ms3 - msOf s1 ms1 ≤ 500) :
    (tap HU (tap HU st s1 ms1 n1) s2 ms2 n2).s_show_hour_names = st.s_show_hour_names ∧
    (tap HU (tap HU (tap HU st s1 ms1 n1) s2 ms2 n2) s3 ms3 n3).s_show_hour_names
      = !st.s_show_hour_names := by
  obtain ⟨hs1, hm1⟩ := hstart
  have he2 : tapExpired (tap HU st s1 ms1 n1) s2 ms2 = false := by
    rw [Bool.eq_false_iff, Ne, expired_iff, hs1, hm1]
    omega
  have hf2 : tapFires (tap HU st s1 ms1 n1) s2 ms2 = false := by
    simp [tapFires, he2, hcount]
  obtain ⟨a2, c2, ls2, lm2⟩ := tap_fields HU (tap HU st s1 ms1 n1) s2 ms2 n2
  simp only [he2, hf2, Bool.or_self, Bool.false_eq_true, if_false, hcount, hs1, hm1, hflag] at a2 c2 ls2 lm2
  have he3 : tapExpired (tap HU (tap HU st s1 ms1 n1) s2 ms2 n2) s3 ms3 = false := by
    rw [Bool.eq_false_iff, Ne, expired_iff, ls2, lm2]
    omega
  have hf3 : tapFires (tap HU (tap HU st s1 ms1 n1) s2 ms2 n2) s3 ms3 = true := by
    simp [tapFires, he3, c2]
  obtain ⟨a3, _⟩ := tap_fields HU (tap HU (tap HU st s1 ms1 n1) s2 ms2 n2) s3 ms3 n3
  simp only [hf3, if_true, a2] at a3
  exact ⟨a2, a3⟩

/-- Instance of the amended C3: taps at 0 ms, 250 ms and 500 ms from the
loaded state. -/
theorem triple_tap_window_witness :
    ((tap 4 loaded 0 0 ⟨13⟩).s_current_taps = 1 ∧
      ((tap 4 loaded 0 0 ⟨13⟩).s_last_tap_s = 0 ∧ (tap 4 loaded 0 0 ⟨13⟩).s_last_tap_ms = 0) ∧
      (tap 4 loaded 0 0 ⟨13⟩).s_show_hour_names = loaded.s_show_hour_names ∧
      msOf 0 0 ≤ msOf 0 250 ∧ msOf 0 250 ≤ msOf 0 500 ∧ msOf 0 500 - msOf 0 0 ≤ 500) ∧
    ((tap 4 (tap 4 loaded 0 0 ⟨13⟩) 0 250 ⟨13⟩).s_show_hour_names = loaded.s_show_hour_names ∧
      (tap 4 (tap 4 (tap 4 loaded 0 0 ⟨13⟩) 0 250 ⟨13⟩) 0 500 ⟨13⟩).s_show_hour_names
        = !loaded.s_show_hour_names) :=
  ⟨⟨by decide, by decide, by decide, by decide, by decide, by decide⟩,
    triple_tap_window 4 loaded 0 0 0 250 0 500 ⟨13⟩ ⟨13⟩ ⟨13⟩
      (by decide) (by decide) (by decide) (by decide) (by decide) (by decide)⟩

/-- C4: in every gesture state reachable from the initial state by taps with
non-decreasing timestamps (exact integer arithmetic), a tap arriving more than
500 ms after the previous tap leaves `s_current_taps = 1`, stores its own
timestamp as the new window start and leaves `s_show_hour_names` unchanged,
whatever the accumulated count was. -/
theorem late_tap_resets (HU : Nat) (prev : Int) (st : State) (s : Int) (ms : Nat) (now : Tm)
    (hr : TapReach HU prev st) (hlate : msOf s ms - prev > 500) :
    (tap HU st s ms now).s_current_taps = 1 ∧
    (tap HU st s ms now).s_last_tap_s = s ∧
    (tap HU st s ms now).s_last_tap_ms = ms ∧
    (tap HU st s ms now).s_show_hour_names = st.s_show_hour_names := by
  have hw := tapReach_window HU prev st hr
  have he : tapExpired st s ms = true := by
    rw [expired_iff]
    omega
  have hf : tapFires st s ms = false := by
    simp [tapFires, he]
  obtain ⟨a, c, ls, lm⟩ := tap_fields HU st s ms now
  simp only [he, hf, Bool.or_false, if_true, Bool.false_eq_true, if_false] at a c ls lm
  exact ⟨c, ls, lm, a⟩

/-- Instance of C4: two counted taps at 0 ms and 100 ms, then a tap at
one second. -/
theorem late_tap_resets_witness :
    (TapReach 4 (msOf 0 100) (tap 4 (tap 4 loaded 0 0 ⟨13⟩) 0 100 ⟨13⟩) ∧
      msOf 1 0 - msOf 0 100 > 500 ∧
      (tap 4 (tap 4 loaded 0 0 ⟨13⟩) 0 100 ⟨13⟩).s_current_taps = 2) ∧
    ((tap 4 (tap 4 (tap 4 loaded 0 0 ⟨13⟩) 0 100 ⟨13⟩) 1 0 ⟨13⟩).s_current_taps = 1 ∧
      (tap 4 (tap 4 (tap 4 loaded 0 0 ⟨13⟩) 0 100 ⟨13⟩) 1 0 ⟨13⟩).s_last_tap_s = 1 ∧
      (tap 4 (tap 4 (tap 4 loaded 0 0 ⟨13⟩) 0 100 ⟨13⟩) 1 0 ⟨13⟩).s_last_tap_ms = 0 ∧
      (tap 4 (tap 4 (tap 4 loaded 0 0 ⟨13⟩) 0 100 ⟨13⟩) 1 0 ⟨13⟩).s_show_hour_names
        = (tap 4 (tap 4 loaded 0 0 ⟨13⟩) 0 100 ⟨13⟩).s_show_hour_names) :=
  ⟨⟨TapReach.tap _ _ 0 100 ⟨13⟩ (TapReach.tap _ _ 0 0 ⟨13⟩ TapReach.load (by decide)) (by decide),
      by decide, by decide⟩,
    late_tap_resets 4 (msOf 0 100) _ 1 0 ⟨13⟩
      (TapReach.tap _ _ 0 100 ⟨13⟩ (TapReach.tap _ _ 0 0 ⟨13⟩ TapReach.load (by decide)) (by decide))
      (by decide)⟩

/-- C5: for every connectivity event and every local hour `h` (in particular
every hour-of-day in [0,23]), `connection_changed` requests a long pulse iff
`connected` is false and `7 ≤ h ≤ 21`, and never requests a short one; so no
pulse on reconnect, none at 6 or 22, a pulse at 7 and at 21. -/
theorem disconnect_pulse (HU : Nat) (st : State) (connected : Bool) (h : Int) :
    ((connection_changed HU st connected ⟨h⟩).2 = some Vibe.long
      ↔ (connected = false ∧ 7 ≤ h ∧ h ≤ 21)) ∧
    (connection_changed HU st connected ⟨h⟩).2 ≠ some Vibe.short ∧
    (connection_changed HU st true ⟨h⟩).2 = none ∧
    (connection_changed HU st false ⟨6⟩).2 = none ∧
    (connection_changed HU st false ⟨7⟩).2 = some Vibe.long ∧
    (connection_changed HU st false ⟨21⟩).2 = some Vibe.long ∧
    (connection_changed HU st false ⟨22⟩).2 = none := by
  refine ⟨?_, ?_, rfl, rfl, rfl, rfl, rfl⟩
  · cases connected <;>
      simp [connection_changed, allow_vibration, VIBE_START_HOUR, VIBE_LAST_HOUR]
  · cases connected <;>
      simp only [connection_changed, allow_vibration, VIBE_START_HOUR, VIBE_LAST_HOUR] <;>
      split <;> simp

/-- C6: for every screen width `w` representable as `uint16_t` and either
display shape, with `margin`, `s_dot_wh`, `hour_wh`, `clock_wh` computed as in
`load_main_window` (truncations included), `clock_wh = 4 * hour_wh +
3 * s_dot_wh` and `clock_wh ≤ w - 2 * margin`. -/
theorem grid_fits (w : Nat) (round : Bool) (hw : w < 65536) :
    (load_main_window w round).clock_wh
      = 4 * (load_main_window w round).hour_wh + 3 * (load_main_window w round).s_dot_wh ∧
    (load_main_window w round).clock_wh
      ≤ (w : Int) - 2 * (load_main_window w round).margin := by
  have hw0 : (0 : Int) ≤ (w : Int) := Int.ofNat_nonneg w
  have hwi : (w : Int) < 65536 := by exact_mod_cast hw
  have hm : Int.tdiv ((w : Int) * 20) 200 = (w : Int) * 20 / 200 :=
    Int.tdiv_eq_ediv (by omega) (by decide)
  have hn : 0 ≤ (w : Int) - 2 * ((w : Int) * 20 / 200 % 256) := by omega
  simp only [load_main_window, COLS, HOUR_DOT_COLS]
  cases round
  · have h := grid_arith (w : Int) hw0
    simpa using h
  · have h := grid_arith _ hn
    simpa [hm] using h

/-- Instance of C6: a round display 180 pixels wide. -/
theorem grid_fits_witness :
    180 < 65536 ∧
    ((load_main_window 180 true).clock_wh
      = 4 * (load_main_window 180 true).hour_wh + 3 * (load_main_window 180 true).s_dot_wh ∧
    (load_main_window 180 true).clock_wh
      ≤ ((180 : Nat) : Int) - 2 * (load_main_window 180 true).margin) :=
  ⟨by decide, grid_fits 180 true (by decide)⟩

/-- C7, as stated, fails: at one in the afternoon, in label mode after a
triple tap, the twelve labels are not "13" to "24"; the last one is "0". This
holds after an hour tick, and already for the labels the toggling tap itself
writes (`tappedOn` is `update` on the just-toggled state, mask 0). -/
theorem afternoon_labels_counterexample :
    Reachable 4 tappedOn ∧ tappedOn.s_show_hour_names = true ∧
    hourBlockRuns 4 tappedOn 4 = true ∧
    labels (update 4 tappedOn ⟨13⟩ 4)
      ≠ ["13", "14", "15", "16", "17", "18", "19", "20", "21", "22", "23", "24"] ∧
    label (update 4 tappedOn ⟨13⟩ 4) 11 = "0" ∧
    tappedOn = update 4 justToggled ⟨13⟩ 0 ∧
    justToggled.s_show_hour_names = true ∧ hourBlockRuns 4 justToggled 0 = true ∧
    labels (update 4 justToggled ⟨13⟩ 0)
      ≠ ["13", "14", "15", "16", "17", "18", "19", "20", "21", "22", "23", "24"] ∧
    label (update 4 justToggled ⟨13⟩ 0) 11 = "0" :=
  ⟨reachable_tappedOn, by decide, by decide, by decide, by decide, rfl, by decide, by decide,
    by decide, by decide⟩

/-- C7, amended: for every hour-of-day `h` in the afternoon block (`h = 0` or
`13 ≤ h ≤ 23`), when label mode is active and `update` runs its hour block for
`h` (hour bit set, or the label mode just toggled), the twelve labels in path
order are "13", ..., "23" and then "0" (the number 24 is written modulo 24);
in the morning block (`1 ≤ h ≤ 12`) they are "1", ..., "12". The state is any
state whose label buffers are all blank or all written for one block, which
by `atUpdate_inv` is every state in which the program enters `update`. -/
theorem label_rows (HU : Nat) (st : State) (units : Nat) (h : Nat)
    (hh : h ≤ 23) (hinv : NamesInv st.s_hour_name) (hshow : st.s_show_hour_names = true)
    (hrun : hourBlockRuns HU st units = true) :
    labels (update HU st ⟨(h : Int)⟩ units)
      = if 1 ≤ h ∧ h ≤ 12 then ["1", "2", "3", "4", "5", "6", "7", "8", "9", "10", "11", "12"]
        else ["13", "14", "15", "16", "17", "18", "19", "20", "21", "22", "23", "0"] := by
  have hl : label (update HU st ⟨(h : Int)⟩ units)
      = fun i => toString (hourNumber (isMorning (h : Int)) i) := by
    funext i
    exact label_update HU st units _ hinv hshow hrun i
  unfold labels
  rw [hl]
  interval_cases h <;> decide

/-- Instances of the amended C7 on both triggers. First the toggle: the third
tap of a triple tap at eleven at night enters `update` with mask 0 and the
mode just toggled on, and the labels get written for the first time. Then the
hour bit: an hour tick at eleven in the morning after a triple tap made in the
afternoon. -/
theorem label_rows_witness :
    ((tap 4 (tap 4 (tap 4 loaded 0 0 ⟨13⟩) 0 200 ⟨13⟩) 0 400 ⟨((23 : Nat) : Int)⟩
        = update 4 justToggled ⟨((23 : Nat) : Int)⟩ 0 ∧
      AtUpdate 4 justToggled ∧ showing_hour_names justToggled = false ∧
      23 ≤ 23 ∧ NamesInv justToggled.s_hour_name ∧ justToggled.s_show_hour_names = true ∧
      hourBlockRuns 4 justToggled 0 = true) ∧
    labels (update 4 justToggled ⟨((23 : Nat) : Int)⟩ 0)
      = if 1 ≤ 23 ∧ 23 ≤ 12 then ["1", "2", "3", "4", "5", "6", "7", "8", "9", "10", "11", "12"]
        else ["13", "14", "15", "16", "17", "18", "19", "20", "21", "22", "23", "0"]) ∧
    ((AtUpdate 4 tappedOn ∧ 11 ≤ 23 ∧ NamesInv tappedOn.s_hour_name ∧
      tappedOn.s_show_hour_names = true ∧ hourBlockRuns 4 tappedOn 4 = true) ∧
    labels (update 4 tappedOn ⟨((11 : Nat) : Int)⟩ 4)
      = if 1 ≤ 11 ∧ 11 ≤ 12 then ["1", "2", "3", "4", "5", "6", "7", "8", "9", "10", "11", "12"]
        else ["13", "14", "15", "16", "17", "18", "19", "20", "21", "22", "23", "0"]) :=
  ⟨⟨⟨rfl, atUpdate_justToggled, by decide, by decide,
        atUpdate_inv 4 justToggled atUpdate_justToggled, by decide, by decide⟩,
      label_rows 4 justToggled 0 23 (by decide)
        (atUpdate_inv 4 justToggled atUpdate_justToggled) (by decide) (by decide)⟩,
    ⟨⟨AtUpdate.event _ reachable_tappedOn, by decide,
        reachable_inv 4 tappedOn reachable_tappedOn, by decide, by decide⟩,
      label_rows 4 tappedOn 4 11 (by decide)
        (reachable_inv 4 tappedOn reachable_tappedOn) (by decide) (by decide)⟩⟩

/-- C8: the positions decoded from `HOUR_BOX_LOC` form a closed clockwise
walk around the border of the 4x4 grid: index 0 is (row 0, col 2), the twelve
positions are pairwise distinct, each has its row or its column in {0, 3}, and
the position of index `(i + 1) mod 12` is the next border cell clockwise from
index `i`, an orthogonal neighbour at distance 1. -/
theorem grid_path :
    hour_pos 0 = (0, 2) ∧
    (List.map hour_pos (List.range HOURS)).Nodup ∧
    (∀ i : Fin HOURS, (hour_row i.val = 0 ∨ hour_row i.val = 3) ∨
      (hour_col i.val = 0 ∨ hour_col i.val = 3)) ∧
    (∀ i : Fin HOURS, hour_pos ((i.val + 1) % HOURS) = nextClockwise (hour_pos i.val) ∧
      gridDist (hour_pos i.val) (hour_pos ((i.val + 1) % HOURS)) = 1 ∧
      ((hour_pos ((i.val + 1) % HOURS)).1 = (hour_pos i.val).1 ∨
        (hour_pos ((i.val + 1) % HOURS)).2 = (hour_pos i.val).2)) := by
  decide

/-- C9, as stated, fails: with five taps at 0, 100, 200, 300 and 400 ms from
the loaded state, the third tap toggles and leaves the counter at 1 (not the
idle 0), and the two further taps, both within 500 ms of the toggling tap,
flip the flag again. -/
theorem five_taps_counterexample :
    loaded.s_current_taps = 0 ∧ loaded.s_show_hour_names = false ∧
    (tap 4 (tap 4 (tap 4 loaded 0 0 ⟨13⟩) 0 100 ⟨13⟩) 0 200 ⟨13⟩).s_show_hour_names = true ∧
    (tap 4 (tap 4 (tap 4 loaded 0 0 ⟨13⟩) 0 100 ⟨13⟩) 0 200 ⟨13⟩).s_current_taps = 1 ∧
    (tap 4 (tap 4 (tap 4 (tap 4 loaded 0 0 ⟨13⟩) 0 100 ⟨13⟩) 0 200 ⟨13⟩) 0 300 ⟨13⟩).s_show_hour_names
      = true ∧
    (tap 4 (tap 4 (tap 4 (tap 4 (tap 4 loaded 0 0 ⟨13⟩) 0 100 ⟨13⟩) 0 200 ⟨13⟩) 0 300 ⟨13⟩)
      0 400 ⟨13⟩).s_show_hour_names = false := by
  decide

/-- C9, amended: after the tap that fires the toggle, the gesture state is
that of a fresh single tap at that time (`s_current_taps = 1`, window start at
the toggling tap), so the toggling tap counts as the first tap of the next
gesture: of two further taps within 500 ms of the toggling tap, the first does
not flip `s_show_hour_names` and the second flips it again. -/
theorem after_toggle (HU : Nat) (st : State)
    (s3 : Int) (ms3 : Nat) (s4 : Int) (ms4 : Nat) (s5 : Int) (ms5 : Nat) (n3 n4 n5 : Tm)
    (hfire : (tap HU st s3 ms3 n3).s_show_hour_names ≠ st.s_show_hour_names)
    (_h34 : msOf s3 ms3 ≤ msOf s4 ms4) (h45 : msOf s4 ms4 ≤ msOf s5 ms5)
    (hwin : msOf s5 ms5 - msOf s3 ms3 ≤ 500) :
    (tap HU st s3 ms3 n3).s_current_taps = 1 ∧
    (tap HU st s3 ms3 n3).s_last_tap_s = s3 ∧
    (tap HU st s3 ms3 n3).s_last_tap_ms = ms3 ∧
    (tap HU (tap HU st s3 ms3 n3) s4 ms4 n4).s_show_hour_names
      = (tap HU st s3 ms3 n3).s_show_hour_names ∧
    (tap HU (tap HU (tap HU st s3 ms3 n3) s4 ms4 n4) s5 ms5 n5).s_show_hour_names
      = !(tap HU st s3 ms3 n3).s_show_hour_names := by
  obtain ⟨a, c, ls, lm⟩ := tap_fields HU st s3 ms3 n3
  have hf : tapFires st s3 ms3 = true := by
    cases hx : tapFires st s3 ms3
    · rw [hx] at a
      exact absurd a hfire
    · rfl
  simp only [hf, Bool.or_true, if_true] at c ls lm
  have he4 : tapExpired (tap HU st s3 ms3 n3) s4 ms4 = false := by
    rw [Bool.eq_false_iff, Ne, expired_iff, ls, lm]
    omega
  have hf4 : tapFires (tap HU st s3 ms3 n3) s4 ms4 = false := by
    simp [tapFires, he4, c]
  obtain ⟨a4, c4, ls4, lm4⟩ := tap_fields HU (tap HU st s3 ms3 n3) s4 ms4 n4
  simp only [he4, hf4, Bool.or_self, Bool.false_eq_true, if_false, c, ls, lm] at a4 c4 ls4 lm4
  have he5 : tapExpired (tap HU (tap HU st s3 ms3 n3) s4 ms4 n4) s5 ms5 = false := by
    rw [Bool.eq_false_iff, Ne, expired_iff, ls4, lm4]
    omega
  have hf5 : tapFires (tap HU (tap HU st s3 ms3 n3) s4 ms4 n4) s5 ms5 = true := by
    simp [tapFires, he5, c4]
  obtain ⟨a5, _⟩ := tap_fields HU (tap HU (tap HU st s3 ms3 n3) s4 ms4 n4) s5 ms5 n5
  simp only [hf5, if_true, a4] at a5
  exact ⟨c, ls, lm, a4, a5⟩

/-- Instance of the amended C9: the toggling tap at 200 ms after taps at 0 ms
and 100 ms, then taps at 300 ms and 400 ms. -/
theorem after_toggle_witness :
    ((tap 4 (tap 4 (tap 4 loaded 0 0 ⟨13⟩) 0 100 ⟨13⟩) 0 200 ⟨13⟩).s_show_hour_names
        ≠ (tap 4 (tap 4 loaded 0 0 ⟨13⟩) 0 100 ⟨13⟩).s_show_hour_names ∧
      msOf 0 200 ≤ msOf 0 300 ∧ msOf 0 300 ≤ msOf 0 400 ∧ msOf 0 400 - msOf 0 200 ≤ 500) ∧
    ((tap 4 (tap 4 (tap 4 loaded 0 0 ⟨13⟩) 0 100 ⟨13⟩) 0 200 ⟨13⟩).s_current_taps = 1 ∧
    (tap 4 (tap 4 (tap 4 loaded 0 0 ⟨13⟩) 0 100 ⟨13⟩) 0 200 ⟨13⟩).s_last_tap_s = 0 ∧
    (tap 4 (tap 4 (tap 4 loaded 0 0 ⟨13⟩) 0 100 ⟨13⟩) 0 200 ⟨13⟩).s_last_tap_ms = 200 ∧
    (tap 4 (tap 4 (tap 4 (tap 4 loaded 0 0 ⟨13⟩) 0 100 ⟨13⟩) 0 200 ⟨13⟩) 0 300 ⟨13⟩).s_show_hour_names
      = (tap 4 (tap 4 (tap 4 loaded 0 0 ⟨13⟩) 0 100 ⟨13⟩) 0 200 ⟨13⟩).s_show_hour_names ∧
    (tap 4 (tap 4 (tap 4 (tap 4 (tap 4 loaded 0 0 ⟨13⟩) 0 100 ⟨13⟩) 0 200 ⟨13⟩) 0 300 ⟨13⟩)
      0 400 ⟨13⟩).s_show_hour_names
      = !(tap 4 (tap 4 (tap 4 loaded 0 0 ⟨13⟩) 0 100 ⟨13⟩) 0 200 ⟨13⟩).s_show_hour_names) :=
  ⟨⟨by decide, by decide, by decide, by decide⟩,
    after_toggle 4 (tap 4 (tap 4 loaded 0 0 ⟨13⟩) 0 100 ⟨13⟩) 0 200 0 300 0 400 ⟨13⟩ ⟨13⟩ ⟨13⟩
      (by decide) (by decide) (by decide) (by decide)⟩

/-- C10: for every hour-of-day `h` in [0,23], when label mode is active and
`update` runs its hour block for `h` (hour bit set, or the label mode just
toggled), the cell of index `(h + 11) mod 12` is lit, no cell of higher index
is lit, and its label is the decimal string of `h` (midnight shown as "0").
The state is any state whose label buffers are all blank or all written for
one block, which by `atUpdate_inv` is every state in which the program enters
`update`: between events, and inside `tap` right after the toggle. -/
theorem last_lit_label (HU : Nat) (st : State) (units : Nat) (h : Nat)
    (hh : h ≤ 23) (hinv : NamesInv st.s_hour_name) (hshow : st.s_show_hour_names = true)
    (hrun : hourBlockRuns HU st units = true) :
    lit (update HU st ⟨(h : Int)⟩ units) ⟨(h + 11) % 12, Nat.mod_lt _ (by decide)⟩ = true ∧
    (∀ j : Fin HOURS, lit (update HU st ⟨(h : Int)⟩ units) j = true → j.val ≤ (h + 11) % 12) ∧
    label (update HU st ⟨(h : Int)⟩ units) ⟨(h + 11) % 12, Nat.mod_lt _ (by decide)⟩
      = toString h := by
  refine ⟨?_, ?_, ?_⟩
  · rw [lit_update HU st units h hh hrun]
  · intro j hj
    exact (lit_update HU st units h hh hrun j).mp hj
  · rw [label_update HU st units _ hinv hshow hrun]
    congr 1
    interval_cases h <;> rfl

/-- Instances of C10 on both triggers. First the toggle: the third tap of a
triple tap at midnight enters `update` with mask 0 and the mode just toggled
on. Then the hour bit: an hour tick at five in the afternoon after a triple
tap made earlier in the afternoon. -/
theorem last_lit_label_witness :
    ((tap 4 (tap 4 (tap 4 loaded 0 0 ⟨13⟩) 0 200 ⟨13⟩) 0 400 ⟨((0 : Nat) : Int)⟩
        = update 4 justToggled ⟨((0 : Nat) : Int)⟩ 0 ∧
      AtUpdate 4 justToggled ∧ showing_hour_names justToggled = false ∧
      0 ≤ 23 ∧ NamesInv justToggled.s_hour_name ∧ justToggled.s_show_hour_names = true ∧
      hourBlockRuns 4 justToggled 0 = true) ∧
    (lit (update 4 justToggled ⟨((0 : Nat) : Int)⟩ 0) ⟨(0 + 11) % 12, Nat.mod_lt _ (by decide)⟩
      = true ∧
    (∀ j : Fin HOURS, lit (update 4 justToggled ⟨((0 : Nat) : Int)⟩ 0) j = true
      → j.val ≤ (0 + 11) % 12) ∧
    label (update 4 justToggled ⟨((0 : Nat) : Int)⟩ 0) ⟨(0 + 11) % 12, Nat.mod_lt _ (by decide)⟩
      = toString 0)) ∧
    ((AtUpdate 4 tappedOn ∧ 17 ≤ 23 ∧ NamesInv tappedOn.s_hour_name ∧
      tappedOn.s_show_hour_names = true ∧ hourBlockRuns 4 tappedOn 4 = true) ∧
    (lit (update 4 tappedOn ⟨((17 : Nat) : Int)⟩ 4) ⟨(17 + 11) % 12, Nat.mod_lt _ (by decide)⟩
      = true ∧
    (∀ j : Fin HOURS, lit (update 4 tappedOn ⟨((17 : Nat) : Int)⟩ 4) j = true
      → j.val ≤ (17 + 11) % 12) ∧
    label (update 4 tappedOn ⟨((17 : Nat) : Int)⟩ 4) ⟨(17 + 11) % 12, Nat.mod_lt _ (by decide)⟩
      = toString 17)) :=
  ⟨⟨⟨rfl, atUpdate_justToggled, by decide, by decide,
        atUpdate_inv 4 justToggled atUpdate_justToggled, by decide, by decide⟩,
      last_lit_label 4 justToggled 0 0 (by decide)
        (atUpdate_inv 4 justToggled atUpdate_justToggled) (by decide) (by decide)⟩,
    ⟨⟨AtUpdate.event _ reachable_tappedOn, by decide,
        reachable_inv 4 tappedOn reachable_tappedOn, by decide, by decide⟩,
      last_lit_label 4 tappedOn 4 17 (by decide)
        (reachable_inv 4 tappedOn reachable_tappedOn) (by decide) (by decide)⟩⟩

end BoxedHours
